import Mathlib

/-!
# VaultSphere anomaly generation and detection: a verification development

Shallow embedding of the VaultSphere synthetic-log repository:
the anomaly detectors of `analyze_anomalies.py`, the event constructors of
`generate_synthetic_logs.py` / `generate_separate_tenant_datasets.py`, and the
error-path control flow of `analyze_tenant_logs.py`.

Timestamps are modelled as natural numbers counting seconds (the scripts use
second-precision datetimes); the hour of a timestamp is `t / 3600 % 24`.
Percentages are modelled as exact rationals.
-/

/-- One row of the event log (the CSV schema shared by all scripts). -/
structure Event where
  timestamp : Nat
  tenant_id : Nat
  user_id : String
  event_type : String
  resource_id : String
  status : String
  ip_address : String
deriving DecidableEq, Repr

/-- First-occurrence deduplication, accumulating already-seen elements;
models the iteration order of `pandas.Series.unique` / dict insertion order. -/
def dedupFirstAux (seen : List String) : List String → List String
  | [] => []
  | x :: xs =>
      if x ∈ seen then dedupFirstAux seen xs
      else x :: dedupFirstAux (x :: seen) xs

/-- Distinct strings of a list in order of first occurrence. -/
def uniqueStr (l : List String) : List String := dedupFirstAux [] l

theorem mem_dedupFirstAux {a : String} :
    ∀ {l : List String} {seen : List String},
      a ∈ dedupFirstAux seen l ↔ a ∈ l ∧ a ∉ seen := by
  intro l
  induction l with
  | nil => intro seen; simp [dedupFirstAux]
  | cons x xs ih =>
      intro seen
      by_cases hx : x ∈ seen
      · simp only [dedupFirstAux, if_pos hx, ih, List.mem_cons]
        constructor
        · rintro ⟨hmem, hns⟩; exact ⟨Or.inr hmem, hns⟩
        · rintro ⟨hmem | hmem, hns⟩
          · exact absurd (hmem ▸ hx) hns
          · exact ⟨hmem, hns⟩
      · simp only [dedupFirstAux, if_neg hx, List.mem_cons, ih]
        constructor
        · rintro (rfl | ⟨hmem, hns⟩)
          · exact ⟨Or.inl rfl, hx⟩
          · exact ⟨Or.inr hmem, fun hs => hns (Or.inr hs)⟩
        · rintro ⟨rfl | hmem, hns⟩
          · exact Or.inl rfl
          · by_cases hax : a = x
            · exact Or.inl hax
            · exact Or.inr ⟨hmem, by simp [hax, hns]⟩

theorem mem_uniqueStr {a : String} {l : List String} :
    a ∈ uniqueStr l ↔ a ∈ l := by
  simp [uniqueStr, mem_dedupFirstAux]

theorem pairwise_ne_dedupFirstAux :
    ∀ (l : List String) (seen : List String),
      (dedupFirstAux seen l).Pairwise (· ≠ ·) := by
  intro l
  induction l with
  | nil => intro seen; simp [dedupFirstAux]
  | cons x xs ih =>
      intro seen
      by_cases hx : x ∈ seen
      · simpa [dedupFirstAux, if_pos hx] using ih seen
      · simp only [dedupFirstAux, if_neg hx]
        refine List.Pairwise.cons ?_ (ih (x :: seen))
        intro b hb
        have hmem := mem_dedupFirstAux.mp hb
        intro hxb
        exact hmem.2 (hxb ▸ List.mem_cons_self x seen)

theorem pairwise_ne_uniqueStr (l : List String) :
    (uniqueStr l).Pairwise (· ≠ ·) :=
  pairwise_ne_dedupFirstAux l []

/-! ## Shared per-user grouping helpers (`df[df['user_id'] == u]` etc.) -/

/-- All distinct users appearing in a log, in order of first appearance
(`self.df['user_id'].unique()`). -/
def uniqueUsers (logs : List Event) : List String :=
  uniqueStr (logs.map (·.user_id))

/-- The sub-log of one user's events, in original order
(`self.df[self.df['user_id'] == user_id]`). -/
def userEvents (logs : List Event) (u : String) : List Event :=
  logs.filter (fun e => e.user_id == u)

/-- Tenant of the first row of a per-user sub-log (`user_events.iloc[0]['tenant_id']`);
the scripts only evaluate this on nonempty sub-logs. -/
def tenantOf (l : List Event) : Nat :=
  match l with
  | [] => 0
  | e :: _ => e.tenant_id

/-- Number of a user's events of one event type (`value_counts().get(t, 0)`). -/
def countType (l : List Event) (t : String) : Nat :=
  (l.filter (fun e => e.event_type == t)).length

/-- Percentage of a list's events of one event type, as an exact rational;
`(count / total_events) * 100 if total_events > 0 else 0`. -/
def typePercentage (l : List Event) (t : String) : ℚ :=
  if l.length = 0 then 0 else (countType l t : ℚ) / (l.length : ℚ) * 100

/-! ## Detector 1: failed-login bursts (`detect_failed_login_bursts`) -/

/-- A row is a failed login (`event_type == 'LOGIN' and status == 'FAILURE'`). -/
def isFailedLogin (e : Event) : Bool :=
  e.event_type == "LOGIN" && e.status == "FAILURE"

/-- All failed-login rows of the log. -/
def failedLogins (logs : List Event) : List Event :=
  logs.filter isFailedLogin

/-- One user's failed-login rows. -/
def userFailures (logs : List Event) (u : String) : List Event :=
  (failedLogins logs).filter (fun e => e.user_id == u)

/-- Ordering of events by timestamp, used to model `sort_values('timestamp')`. -/
def tsLE : Event → Event → Prop := fun a b => a.timestamp ≤ b.timestamp

instance : DecidableRel tsLE := fun a b =>
  inferInstanceAs (Decidable (a.timestamp ≤ b.timestamp))

instance : IsTotal Event tsLE := ⟨fun a b => Nat.le_total a.timestamp b.timestamp⟩

instance : IsTrans Event tsLE := ⟨fun _ _ _ hab hbc => Nat.le_trans hab hbc⟩

/-- Sort a sub-log by ascending timestamp (`sort_values('timestamp')`). -/
def sortByTime (l : List Event) : List Event := List.insertionSort tsLE l

/-- Membership test for a candidate time window
(`timestamp >= window_start and timestamp <= window_start + window`);
`w` is the window width in seconds. -/
def inWindow (start w : Nat) (e : Event) : Bool :=
  start ≤ e.timestamp && e.timestamp ≤ start + w

/-- The failures of a sub-log falling in the window `[start, start + w]` seconds. -/
def windowFailures (fs : List Event) (start w : Nat) : List Event :=
  fs.filter (inWindow start w)

/-- Scan the sorted failures in order and return the first row whose anchored
window holds at least `threshold` failures (the `for i in range(...)` loop with
its `break`). `all` is the full sorted per-user failure list being filtered. -/
def firstAnchor (all : List Event) (threshold w : Nat) : List Event → Option Event
  | [] => none
  | e :: rest =>
      if threshold ≤ (windowFailures all e.timestamp w).length then some e
      else firstAnchor all threshold w rest

/-- Largest timestamp in a sub-log (`window_failures['timestamp'].max()`);
the scripts only evaluate this on nonempty sub-logs. -/
def maxTs : List Event → Nat
  | [] => 0
  | e :: rest => max e.timestamp (maxTs rest)

/-- A reported failed-login burst (the `anomaly` dict of
`detect_failed_login_bursts`). -/
structure BurstRecord where
  user_id : String
  tenant_id : Nat
  start_time : Nat
  end_time : Nat
  failure_count : Nat
  unique_ips : Nat
  suspicious_ips : List String
deriving DecidableEq, Repr

/-- The burst reported for one user, if any: skip users with fewer than
`threshold` failures, otherwise report the first window reaching `threshold`.
`l` is the user's failure list sorted by timestamp; `wMin` is the window width
in minutes. -/
def userBurst (u : String) (l : List Event) (threshold wMin : Nat) :
    Option BurstRecord :=
  if l.length < threshold then none
  else
    match firstAnchor l threshold (wMin * 60) l with
    | none => none
    | some a =>
        let wfs := windowFailures l a.timestamp (wMin * 60)
        let ips := uniqueStr (wfs.map (·.ip_address))
        some { user_id := u
               tenant_id := tenantOf l
               start_time := a.timestamp
               end_time := maxTs wfs
               failure_count := wfs.length
               unique_ips := ips.length
               suspicious_ips := ips }

/-- `detect_failed_login_bursts(threshold, time_window_minutes)`: one burst
record per qualifying user, in order of first appearance among failed logins. -/
def detectFailedLoginBursts (logs : List Event) (threshold wMin : Nat) :
    List BurstRecord :=
  (uniqueStr ((failedLogins logs).map (·.user_id))).filterMap
    (fun u => userBurst u (sortByTime (userFailures logs u)) threshold wMin)

/-- The 15-failure demo stream of the spec's burst test: one user, 15 LOGIN
failures spaced 2 minutes apart starting at time 0. -/
def demo15Logs : List Event :=
  (List.range 15).map (fun k =>
    { timestamp := 120 * k, tenant_id := 1, user_id := "T01U001",
      event_type := "LOGIN", resource_id := "RES_1", status := "FAILURE",
      ip_address := "10.0.0.1" })

/-- The burst the detector actually reports on `demo15Logs`. -/
def demo15Burst : BurstRecord :=
  { user_id := "T01U001", tenant_id := 1, start_time := 0, end_time := 1680,
    failure_count := 15, unique_ips := 1, suspicious_ips := ["10.0.0.1"] }

/-! ### Lemmas about the burst scan -/

theorem firstAnchor_eq_none_iff {all : List Event} {th w : Nat} :
    ∀ {l : List Event}, firstAnchor all th w l = none ↔
      ∀ e ∈ l, (windowFailures all e.timestamp w).length < th := by
  intro l
  induction l with
  | nil => simp [firstAnchor]
  | cons e rest ih =>
      by_cases h : th ≤ (windowFailures all e.timestamp w).length
      · simp only [firstAnchor, if_pos h]
        constructor
        · intro h0; exact absurd h0 (by simp)
        · intro hall; exact absurd h (Nat.not_le_of_lt (hall e (List.mem_cons_self e rest)))
      · simp only [firstAnchor, if_neg h, ih, List.mem_cons]
        constructor
        · intro hall e' he'
          rcases he' with rfl | he'
          · exact Nat.lt_of_not_le h
          · exact hall e' he'
        · intro hall e' he'
          exact hall e' (Or.inr he')

theorem firstAnchor_eq_some {all : List Event} {th w : Nat} :
    ∀ {l : List Event} {a : Event}, firstAnchor all th w l = some a →
      a ∈ l ∧ th ≤ (windowFailures all a.timestamp w).length := by
  intro l
  induction l with
  | nil => intro a h; exact absurd h (by simp [firstAnchor])
  | cons e rest ih =>
      intro a h
      by_cases hth : th ≤ (windowFailures all e.timestamp w).length
      · rw [firstAnchor, if_pos hth] at h
        injection h with h
        subst h
        exact ⟨List.mem_cons_self e rest, hth⟩
      · rw [firstAnchor, if_neg hth] at h
        obtain ⟨hmem, hw⟩ := ih h
        exact ⟨List.mem_cons_of_mem e hmem, hw⟩

theorem firstAnchor_min {all : List Event} {th w : Nat} :
    ∀ {l : List Event} {a : Event}, l.Sorted tsLE →
      firstAnchor all th w l = some a →
      ∀ e ∈ l, th ≤ (windowFailures all e.timestamp w).length →
        a.timestamp ≤ e.timestamp := by
  intro l
  induction l with
  | nil => intro a _ h; exact absurd h (by simp [firstAnchor])
  | cons e rest ih =>
      intro a hsort h e' he' hth'
      rw [List.sorted_cons] at hsort
      by_cases hth : th ≤ (windowFailures all e.timestamp w).length
      · rw [firstAnchor, if_pos hth] at h
        injection h with h
        subst h
        rcases List.mem_cons.mp he' with rfl | he'
        · exact Nat.le_refl _
        · exact hsort.1 e' he'
      · rw [firstAnchor, if_neg hth] at h
        rcases List.mem_cons.mp he' with rfl | he'
        · exact absurd hth' hth
        · exact ih hsort.2 h e' he' hth'

theorem le_maxTs : ∀ {l : List Event} {e : Event}, e ∈ l → e.timestamp ≤ maxTs l := by
  intro l
  induction l with
  | nil => intro e h; exact absurd h (List.not_mem_nil e)
  | cons x xs ih =>
      intro e h
      rcases List.mem_cons.mp h with rfl | h
      · exact Nat.le_max_left _ _
      · exact Nat.le_trans (ih h) (Nat.le_max_right _ _)

theorem maxTs_mem : ∀ {l : List Event}, l ≠ [] → ∃ e ∈ l, maxTs l = e.timestamp := by
  intro l
  induction l with
  | nil => intro h; exact absurd rfl h
  | cons x xs ih =>
      intro _
      by_cases hxs : xs = []
      · subst hxs
        exact ⟨x, List.mem_cons_self x [], by simp [maxTs]⟩
      · obtain ⟨e, he, hmax⟩ := ih hxs
        by_cases hle : maxTs xs ≤ x.timestamp
        · exact ⟨x, List.mem_cons_self x xs, by simp [maxTs, Nat.max_eq_left hle]⟩
        · refine ⟨e, List.mem_cons_of_mem x he, ?_⟩
          show max x.timestamp (maxTs xs) = e.timestamp
          rw [Nat.max_eq_right (le_of_not_le hle), hmax]

theorem sortByTime_perm (l : List Event) : (sortByTime l).Perm l :=
  List.perm_insertionSort tsLE l

theorem sortByTime_sorted (l : List Event) : (sortByTime l).Sorted tsLE :=
  List.sorted_insertionSort tsLE l

theorem mem_sortByTime {l : List Event} {e : Event} : e ∈ sortByTime l ↔ e ∈ l :=
  (sortByTime_perm l).mem_iff

theorem length_sortByTime (l : List Event) : (sortByTime l).length = l.length :=
  (sortByTime_perm l).length_eq

theorem length_windowFailures_sortByTime (l : List Event) (s w : Nat) :
    (windowFailures (sortByTime l) s w).length = (windowFailures l s w).length :=
  ((sortByTime_perm l).filter _).length_eq

theorem mem_windowFailures_sortByTime {l : List Event} {s w : Nat} {e : Event} :
    e ∈ windowFailures (sortByTime l) s w ↔ e ∈ windowFailures l s w :=
  ((sortByTime_perm l).filter _).mem_iff

theorem userBurst_eq_some {u : String} {l : List Event} {th wMin : Nat}
    {b : BurstRecord} (h : userBurst u l th wMin = some b) :
    b.user_id = u ∧ th ≤ l.length ∧
    ∃ a, firstAnchor l th (wMin * 60) l = some a ∧
      b.start_time = a.timestamp ∧
      b.end_time = maxTs (windowFailures l a.timestamp (wMin * 60)) ∧
      b.failure_count = (windowFailures l a.timestamp (wMin * 60)).length ∧
      b.suspicious_ips =
        uniqueStr ((windowFailures l a.timestamp (wMin * 60)).map (·.ip_address)) := by
  unfold userBurst at h
  split at h
  · exact absurd h (by simp)
  · rename_i hlen
    split at h
    · exact absurd h (by simp)
    · rename_i a ha
      injection h with h
      subst h
      exact ⟨rfl, Nat.le_of_not_lt hlen, a, ha, rfl, rfl, rfl, rfl⟩

theorem userBurst_eq_of_anchor {u : String} {l : List Event} {th wMin : Nat}
    {a : Event} (hlen : ¬ l.length < th)
    (ha : firstAnchor l th (wMin * 60) l = some a) :
    userBurst u l th wMin =
      some { user_id := u, tenant_id := tenantOf l,
             start_time := a.timestamp,
             end_time := maxTs (windowFailures l a.timestamp (wMin * 60)),
             failure_count := (windowFailures l a.timestamp (wMin * 60)).length,
             unique_ips :=
               (uniqueStr ((windowFailures l a.timestamp (wMin * 60)).map
                 (·.ip_address))).length,
             suspicious_ips :=
               uniqueStr ((windowFailures l a.timestamp (wMin * 60)).map
                 (·.ip_address)) } := by
  unfold userBurst
  rw [if_neg hlen, ha]

theorem userBurst_eq_some_iff_exists {u : String} {l : List Event} {th wMin : Nat} :
    (∃ b, userBurst u l th wMin = some b) ↔
      (th ≤ l.length ∧
       ∃ e ∈ l, th ≤ (windowFailures l e.timestamp (wMin * 60)).length) := by
  constructor
  · rintro ⟨b, hb⟩
    obtain ⟨_, hlen, a, ha, _⟩ := userBurst_eq_some hb
    obtain ⟨hmem, hth⟩ := firstAnchor_eq_some ha
    exact ⟨hlen, a, hmem, hth⟩
  · rintro ⟨hlen, e, he, hth⟩
    have hnone : firstAnchor l th (wMin * 60) l ≠ none := by
      intro h0
      exact absurd hth (Nat.not_le_of_lt (firstAnchor_eq_none_iff.mp h0 e he))
    obtain ⟨a, ha⟩ := Option.ne_none_iff_exists'.mp hnone
    exact ⟨_, userBurst_eq_of_anchor (Nat.not_lt_of_le hlen) ha⟩

theorem mem_userFailures {logs : List Event} {u : String} {e : Event} :
    e ∈ userFailures logs u ↔ e ∈ failedLogins logs ∧ e.user_id = u := by
  simp [userFailures, List.mem_filter]

theorem mem_burstUsers_iff {logs : List Event} {u : String} :
    u ∈ uniqueStr ((failedLogins logs).map (·.user_id)) ↔
      ∃ e ∈ failedLogins logs, e.user_id = u := by
  rw [mem_uniqueStr, List.mem_map]

theorem mem_detectFailedLoginBursts {logs : List Event} {th wMin : Nat}
    {b : BurstRecord} :
    b ∈ detectFailedLoginBursts logs th wMin ↔
      b.user_id ∈ uniqueStr ((failedLogins logs).map (·.user_id)) ∧
      userBurst b.user_id (sortByTime (userFailures logs b.user_id)) th wMin = some b := by
  unfold detectFailedLoginBursts
  rw [List.mem_filterMap]
  constructor
  · rintro ⟨u, hu, hb⟩
    have huid : b.user_id = u := (userBurst_eq_some hb).1
    rw [huid]
    exact ⟨hu, hb⟩
  · rintro ⟨hu, hb⟩
    exact ⟨b.user_id, hu, hb⟩

theorem map_userId_detect_sublist (logs : List Event) (th wMin : Nat) :
    ((detectFailedLoginBursts logs th wMin).map (·.user_id)).Sublist
      (uniqueStr ((failedLogins logs).map (·.user_id))) := by
  unfold detectFailedLoginBursts
  generalize uniqueStr ((failedLogins logs).map (·.user_id)) = users
  induction users with
  | nil => simp
  | cons u us ih =>
      rw [List.filterMap_cons]
      cases h : userBurst u (sortByTime (userFailures logs u)) th wMin with
      | none => exact ih.cons u
      | some b =>
          rw [List.map_cons]
          rw [(userBurst_eq_some h).1]
          exact ih.cons₂ u

/-- C1: `detect_failed_login_bursts` reports at most one burst per user; a user
is reported iff they have at least `threshold` LOGIN/FAILURE events and some
failure timestamp anchors a window `[start, start + window]` holding at least
`threshold` of their failures; the reported record is for the earliest-anchored
such window and carries the anchor, the window failure count and the set of
distinct IPs observed in that window. -/
theorem burst_detection_characterization (logs : List Event) (threshold wMin : Nat) :
    ((detectFailedLoginBursts logs threshold wMin).map (·.user_id)).Pairwise (· ≠ ·)
    ∧ (∀ u : String,
        (∃ b ∈ detectFailedLoginBursts logs threshold wMin, b.user_id = u) ↔
          (threshold ≤ (userFailures logs u).length ∧
           ∃ e ∈ userFailures logs u,
             threshold ≤ (windowFailures (userFailures logs u) e.timestamp (wMin * 60)).length))
    ∧ (∀ b ∈ detectFailedLoginBursts logs threshold wMin,
        (∃ e ∈ userFailures logs b.user_id, e.timestamp = b.start_time) ∧
        threshold ≤
          (windowFailures (userFailures logs b.user_id) b.start_time (wMin * 60)).length ∧
        (∀ e ∈ userFailures logs b.user_id,
           threshold ≤
             (windowFailures (userFailures logs b.user_id) e.timestamp (wMin * 60)).length →
           b.start_time ≤ e.timestamp) ∧
        b.failure_count =
          (windowFailures (userFailures logs b.user_id) b.start_time (wMin * 60)).length ∧
        (∀ ip : String, ip ∈ b.suspicious_ips ↔
           ∃ e ∈ windowFailures (userFailures logs b.user_id) b.start_time (wMin * 60),
             e.ip_address = ip)) := by
  refine ⟨?_, ?_, ?_⟩
  · exact List.Pairwise.sublist (map_userId_detect_sublist logs threshold wMin)
      (pairwise_ne_uniqueStr _)
  · intro u
    constructor
    · rintro ⟨b, hb, rfl⟩
      obtain ⟨_, hsome⟩ := mem_detectFailedLoginBursts.mp hb
      obtain ⟨hlen, e, he, hth⟩ := userBurst_eq_some_iff_exists.mp ⟨b, hsome⟩
      rw [length_sortByTime] at hlen
      rw [length_windowFailures_sortByTime] at hth
      exact ⟨hlen, e, mem_sortByTime.mp he, hth⟩
    · rintro ⟨hlen, e, he, hth⟩
      have hu : u ∈ uniqueStr ((failedLogins logs).map (·.user_id)) := by
        obtain ⟨hmem, huid⟩ := mem_userFailures.mp he
        exact mem_burstUsers_iff.mpr ⟨e, hmem, huid⟩
      obtain ⟨b, hb⟩ :=
        (@userBurst_eq_some_iff_exists u (sortByTime (userFailures logs u))
          threshold wMin).mpr
        ⟨by rwa [length_sortByTime], e, mem_sortByTime.mpr he,
          by rwa [length_windowFailures_sortByTime]⟩
      have huid : b.user_id = u := (userBurst_eq_some hb).1
      refine ⟨b, mem_detectFailedLoginBursts.mpr ⟨huid ▸ hu, ?_⟩, huid⟩
      rw [huid]
      exact hb
  · intro b hb
    obtain ⟨_, hsome⟩ := mem_detectFailedLoginBursts.mp hb
    obtain ⟨_, hlen, a, ha, hst, hend, hcnt, hips⟩ := userBurst_eq_some hsome
    obtain ⟨hamem, hath⟩ := firstAnchor_eq_some ha
    refine ⟨⟨a, mem_sortByTime.mp hamem, hst.symm⟩, ?_, ?_, ?_, ?_⟩
    · rw [hst, ← length_windowFailures_sortByTime]
      exact hath
    · intro e he hth
      rw [hst]
      exact firstAnchor_min (sortByTime_sorted _) ha e (mem_sortByTime.mpr he)
        (by rwa [length_windowFailures_sortByTime])
    · rw [hcnt, hst, length_windowFailures_sortByTime]
    · intro ip
      rw [hips, mem_uniqueStr, List.mem_map]
      constructor
      · rintro ⟨e, he, rfl⟩
        exact ⟨e, by rw [hst]; exact mem_windowFailures_sortByTime.mp he, rfl⟩
      · rintro ⟨e, he, rfl⟩
        exact ⟨e, mem_windowFailures_sortByTime.mpr (by rwa [← hst]), rfl⟩

/-- Witness for C1 at the 15-failure demo stream: the demo user is reported. -/
theorem burst_detection_characterization_witness :
    ∃ b ∈ detectFailedLoginBursts demo15Logs 10 60, b.user_id = "T01U001" :=
  ((burst_detection_characterization demo15Logs 10 60).2.1 "T01U001").mpr (by decide)

theorem mem_windowFailures_iff {l : List Event} {s w : Nat} {e : Event} :
    e ∈ windowFailures l s w ↔
      e ∈ l ∧ s ≤ e.timestamp ∧ e.timestamp ≤ s + w := by
  simp [windowFailures, inWindow, List.mem_filter, Bool.and_eq_true,
    decide_eq_true_eq, and_assoc]

/-- C9: in every reported burst, `start_time` is one of the user's failure
timestamps, `end_time` is the largest failure timestamp falling inside
`[start_time, start_time + window]` (the last observed failure, not
`start_time + window`), hence the burst spans at most the window width, and
`failure_count` equals the number of the user's failures with timestamp in
`[start_time, end_time]`. -/
theorem burst_record_invariants (logs : List Event) (threshold wMin : Nat) :
    ∀ b ∈ detectFailedLoginBursts logs threshold wMin,
      (∃ e ∈ userFailures logs b.user_id, e.timestamp = b.start_time) ∧
      (∃ e ∈ windowFailures (userFailures logs b.user_id) b.start_time (wMin * 60),
         e.timestamp = b.end_time) ∧
      (∀ e ∈ windowFailures (userFailures logs b.user_id) b.start_time (wMin * 60),
         e.timestamp ≤ b.end_time) ∧
      b.start_time ≤ b.end_time ∧
      b.end_time ≤ b.start_time + wMin * 60 ∧
      b.end_time - b.start_time ≤ wMin * 60 ∧
      b.failure_count =
        ((userFailures logs b.user_id).filter
          (fun e => b.start_time ≤ e.timestamp && e.timestamp ≤ b.end_time)).length := by
  intro b hb
  obtain ⟨_, hsome⟩ := mem_detectFailedLoginBursts.mp hb
  obtain ⟨_, hlen, a, ha, hst, hend, hcnt, _⟩ := userBurst_eq_some hsome
  obtain ⟨hamem, _⟩ := firstAnchor_eq_some ha
  have hawin :
      a ∈ windowFailures (sortByTime (userFailures logs b.user_id)) a.timestamp
        (wMin * 60) :=
    mem_windowFailures_iff.mpr ⟨hamem, Nat.le_refl _, Nat.le_add_right _ _⟩
  obtain ⟨em, hm, hmeq⟩ := maxTs_mem (List.ne_nil_of_mem hawin)
  have hmaxle :
      maxTs (windowFailures (sortByTime (userFailures logs b.user_id)) a.timestamp
        (wMin * 60)) ≤ a.timestamp + wMin * 60 := by
    rw [hmeq]
    exact (mem_windowFailures_iff.mp hm).2.2
  have hstart_le :
      a.timestamp ≤
        maxTs (windowFailures (sortByTime (userFailures logs b.user_id)) a.timestamp
          (wMin * 60)) :=
    le_maxTs hawin
  refine ⟨⟨a, mem_sortByTime.mp hamem, hst.symm⟩, ?_, ?_, ?_, ?_, ?_, ?_⟩
  · refine ⟨em, ?_, ?_⟩
    · rw [hst]
      exact mem_windowFailures_sortByTime.mp hm
    · rw [hend, hmeq]
  · intro e he
    rw [hend]
    exact le_maxTs (mem_windowFailures_sortByTime.mpr (by rwa [← hst]))
  · rw [hst, hend]
    exact hstart_le
  · rw [hst, hend]
    exact hmaxle
  · rw [hst, hend]
    omega
  · have hcongr : ∀ e ∈ userFailures logs b.user_id,
        inWindow a.timestamp (wMin * 60) e =
          (b.start_time ≤ e.timestamp && e.timestamp ≤ b.end_time) := by
      intro e he
      by_cases h1 : a.timestamp ≤ e.timestamp
      · have hiff : e.timestamp ≤ a.timestamp + wMin * 60 ↔
            e.timestamp ≤ b.end_time := by
          constructor
          · intro h2
            rw [hend]
            exact le_maxTs (mem_windowFailures_iff.mpr
              ⟨mem_sortByTime.mpr he, h1, h2⟩)
          · intro h2
            rw [hend] at h2
            exact Nat.le_trans h2 hmaxle
        simp only [inWindow, hst, h1, decide_True, Bool.true_and]
        exact decide_eq_decide.mpr hiff
      · simp [inWindow, hst, h1]
    rw [hcnt, length_windowFailures_sortByTime]
    show (List.filter (inWindow a.timestamp (wMin * 60))
        (userFailures logs b.user_id)).length = _
    rw [List.filter_congr hcongr]

/-- Witness for C9: the invariants hold at the burst reported on the demo
stream. -/
theorem burst_record_invariants_witness :
    (∃ e ∈ userFailures demo15Logs demo15Burst.user_id,
       e.timestamp = demo15Burst.start_time) ∧
    (∃ e ∈ windowFailures (userFailures demo15Logs demo15Burst.user_id)
        demo15Burst.start_time (60 * 60), e.timestamp = demo15Burst.end_time) ∧
    (∀ e ∈ windowFailures (userFailures demo15Logs demo15Burst.user_id)
        demo15Burst.start_time (60 * 60), e.timestamp ≤ demo15Burst.end_time) ∧
    demo15Burst.start_time ≤ demo15Burst.end_time ∧
    demo15Burst.end_time ≤ demo15Burst.start_time + 60 * 60 ∧
    demo15Burst.end_time - demo15Burst.start_time ≤ 60 * 60 ∧
    demo15Burst.failure_count =
      ((userFailures demo15Logs demo15Burst.user_id).filter
        (fun e => demo15Burst.start_time ≤ e.timestamp &&
          e.timestamp ≤ demo15Burst.end_time)).length :=
  burst_record_invariants demo15Logs 10 60 demo15Burst (by decide)

/-- C2 counterexample: on a stream with 15 LOGIN failures 2 minutes apart
(threshold 10, window 60 min) the detector does NOT report a burst covering
only events 0..9: the reported burst has failure count 15 (all events), not
10, and its end time is the 15th failure's timestamp, not the 10th's. -/
theorem burst_demo15_counterexample :
    ¬ ((detectFailedLoginBursts demo15Logs 10 60).length = 1 ∧
       ∀ b ∈ detectFailedLoginBursts demo15Logs 10 60,
         b.failure_count = 10 ∧ b.end_time = 1080) := by
  decide

/-- C2 amended: the detector reports exactly one burst for the demo user,
anchored at event 0 (start time T0 = 0), but the 60-minute window anchored
there contains all 15 failures (they span only 28 minutes), so the burst
covers events 0..14 with failure count 15 and end time T0 + 28 min. -/
theorem burst_demo15_amended :
    detectFailedLoginBursts demo15Logs 10 60 = [demo15Burst] := by
  decide

/-! ## Detector 2: unusual event-type mix (`detect_unusual_event_types`) -/

/-- A reported unusual-DELETE-activity user (the `anomaly` dict of
`detect_unusual_event_types`). -/
structure UnusualRecord where
  user_id : String
  tenant_id : Nat
  delete_percentage : ℚ
  delete_count : Int
  total_events : Nat
deriving DecidableEq, Repr

/-- Python `int()` applied to an exact rational: truncation toward zero. -/
def pyInt (q : ℚ) : Int := if 0 ≤ q then ⌊q⌋ else ⌈q⌉

/-- The record reported for one user, if any: flag users with more than 2%
DELETE events and more than 50 total events
(`if delete_percentage > 2.0 and profile['total_events'] > 50`). -/
def unusualRecord (logs : List Event) (u : String) : Option UnusualRecord :=
  let evs := userEvents logs u
  let pct := typePercentage evs "DELETE"
  if 2 < pct ∧ 50 < evs.length then
    some { user_id := u, tenant_id := tenantOf evs,
           delete_percentage := pct,
           delete_count := pyInt (pct / 100 * (evs.length : ℚ)),
           total_events := evs.length }
  else none

/-- Descending order on DELETE percentage
(`anomalies.sort(key=..., reverse=True)`). -/
def pctGE : UnusualRecord → UnusualRecord → Prop :=
  fun a b => b.delete_percentage ≤ a.delete_percentage

instance : DecidableRel pctGE := fun a b =>
  inferInstanceAs (Decidable (b.delete_percentage ≤ a.delete_percentage))

instance : IsTotal UnusualRecord pctGE :=
  ⟨fun a b => le_total b.delete_percentage a.delete_percentage⟩

instance : IsTrans UnusualRecord pctGE :=
  ⟨fun _ _ _ hab hbc => le_trans hbc hab⟩

/-- `detect_unusual_event_types()`: flagged users sorted descending by DELETE
percentage. -/
def detectUnusualEventTypes (logs : List Event) : List UnusualRecord :=
  List.insertionSort pctGE ((uniqueUsers logs).filterMap (unusualRecord logs))

/-- Severity printed for a flagged user
(`'HIGH' if anomaly['delete_percentage'] > 5 else 'MEDIUM'`). -/
def severityLabel (r : UnusualRecord) : String :=
  if 5 < r.delete_percentage then "HIGH" else "MEDIUM"

theorem mem_uniqueUsers_iff {logs : List Event} {u : String} :
    u ∈ uniqueUsers logs ↔ ∃ e ∈ logs, e.user_id = u := by
  rw [uniqueUsers, mem_uniqueStr, List.mem_map]

theorem mem_userEvents {logs : List Event} {u : String} {e : Event} :
    e ∈ userEvents logs u ↔ e ∈ logs ∧ e.user_id = u := by
  simp [userEvents, List.mem_filter]

theorem unusualRecord_eq_some {logs : List Event} {u : String} {r : UnusualRecord}
    (h : unusualRecord logs u = some r) :
    r.user_id = u ∧
    r.delete_percentage = typePercentage (userEvents logs u) "DELETE" ∧
    r.delete_count =
      pyInt (typePercentage (userEvents logs u) "DELETE" / 100 *
        ((userEvents logs u).length : ℚ)) ∧
    r.total_events = (userEvents logs u).length ∧
    2 < typePercentage (userEvents logs u) "DELETE" ∧
    50 < (userEvents logs u).length := by
  simp only [unusualRecord] at h
  split at h
  · rename_i hcond
    injection h with h
    subst h
    exact ⟨rfl, rfl, rfl, rfl, hcond.1, hcond.2⟩
  · exact absurd h (by simp)

theorem unusualRecord_eq_of_cond {logs : List Event} {u : String}
    (hcond : 2 < typePercentage (userEvents logs u) "DELETE" ∧
      50 < (userEvents logs u).length) :
    unusualRecord logs u =
      some { user_id := u, tenant_id := tenantOf (userEvents logs u),
             delete_percentage := typePercentage (userEvents logs u) "DELETE",
             delete_count :=
               pyInt (typePercentage (userEvents logs u) "DELETE" / 100 *
                 ((userEvents logs u).length : ℚ)),
             total_events := (userEvents logs u).length } := by
  simp only [unusualRecord]
  rw [if_pos hcond]

theorem unusualRecord_isSome_iff {logs : List Event} {u : String} :
    (∃ r, unusualRecord logs u = some r) ↔
      (2 < typePercentage (userEvents logs u) "DELETE" ∧
       50 < (userEvents logs u).length) := by
  constructor
  · rintro ⟨r, hr⟩
    obtain ⟨_, _, _, _, h1, h2⟩ := unusualRecord_eq_some hr
    exact ⟨h1, h2⟩
  · intro hcond
    exact ⟨_, unusualRecord_eq_of_cond hcond⟩

theorem mem_detectUnusualEventTypes {logs : List Event} {r : UnusualRecord} :
    r ∈ detectUnusualEventTypes logs ↔
      r.user_id ∈ uniqueUsers logs ∧ unusualRecord logs r.user_id = some r := by
  unfold detectUnusualEventTypes
  rw [List.mem_insertionSort, List.mem_filterMap]
  constructor
  · rintro ⟨u, hu, hr⟩
    have huid : r.user_id = u := (unusualRecord_eq_some hr).1
    rw [huid]
    exact ⟨hu, hr⟩
  · rintro ⟨hu, hr⟩
    exact ⟨r.user_id, hu, hr⟩

/-- C3: `detect_unusual_event_types` flags a user iff their DELETE percentage
strictly exceeds 2 and their total event count strictly exceeds 50; severity is
HIGH iff the percentage strictly exceeds 5 and MEDIUM otherwise; the output is
sorted descending by DELETE percentage. -/
theorem unusual_event_types_characterization (logs : List Event) :
    (∀ u : String,
       (∃ r ∈ detectUnusualEventTypes logs, r.user_id = u) ↔
         (2 < typePercentage (userEvents logs u) "DELETE" ∧
          50 < (userEvents logs u).length))
    ∧ (∀ r ∈ detectUnusualEventTypes logs,
        r.delete_percentage = typePercentage (userEvents logs r.user_id) "DELETE" ∧
        r.total_events = (userEvents logs r.user_id).length ∧
        (severityLabel r = "HIGH" ↔
          5 < typePercentage (userEvents logs r.user_id) "DELETE") ∧
        (severityLabel r = "MEDIUM" ↔
          typePercentage (userEvents logs r.user_id) "DELETE" ≤ 5))
    ∧ (detectUnusualEventTypes logs).Pairwise pctGE := by
  refine ⟨?_, ?_, ?_⟩
  · intro u
    constructor
    · rintro ⟨r, hr, rfl⟩
      obtain ⟨_, hsome⟩ := mem_detectUnusualEventTypes.mp hr
      obtain ⟨_, _, _, _, h1, h2⟩ := unusualRecord_eq_some hsome
      exact ⟨h1, h2⟩
    · intro hcond
      obtain ⟨r, hr⟩ := unusualRecord_isSome_iff.mpr hcond
      have huid : r.user_id = u := (unusualRecord_eq_some hr).1
      have hne : userEvents logs u ≠ [] := by
        intro h0
        rw [h0] at hcond
        exact absurd hcond.2 (by simp)
      obtain ⟨e, he⟩ := List.exists_mem_of_ne_nil _ hne
      have hu : u ∈ uniqueUsers logs :=
        mem_uniqueUsers_iff.mpr ⟨e, (mem_userEvents.mp he).1, (mem_userEvents.mp he).2⟩
      exact ⟨r, mem_detectUnusualEventTypes.mpr ⟨huid ▸ hu, huid ▸ hr⟩, huid⟩
  · intro r hr
    obtain ⟨_, hsome⟩ := mem_detectUnusualEventTypes.mp hr
    obtain ⟨_, hpct, _, htot, _, _⟩ := unusualRecord_eq_some hsome
    have hlab : severityLabel r =
        (if 5 < typePercentage (userEvents logs r.user_id) "DELETE" then "HIGH"
         else "MEDIUM") := by
      rw [severityLabel, hpct]
    refine ⟨hpct, htot, ?_, ?_⟩
    · by_cases h5 : 5 < typePercentage (userEvents logs r.user_id) "DELETE"
      · rw [hlab, if_pos h5]
        exact ⟨fun _ => h5, fun _ => rfl⟩
      · rw [hlab, if_neg h5]
        constructor
        · intro h
          exact absurd h (by decide)
        · intro h
          exact absurd h h5
    · by_cases h5 : 5 < typePercentage (userEvents logs r.user_id) "DELETE"
      · rw [hlab, if_pos h5]
        constructor
        · intro h
          exact absurd h (by decide)
        · intro h
          exact absurd h5 (not_lt_of_le h)
      · rw [hlab, if_neg h5]
        exact ⟨fun _ => le_of_not_lt h5, fun _ => rfl⟩
  · exact List.sorted_insertionSort pctGE _

/-- A plain SUCCESS event at 10:00, used to build boundary demo streams. -/
def mkPlainEvent (u et : String) : Event :=
  { timestamp := 36000, tenant_id := 1, user_id := u, event_type := et,
    resource_id := "RES_1", status := "SUCCESS", ip_address := "10.0.0.1" }

/-- Boundary demo for the volume floor: alice has 51 events with 2 DELETEs
(3.9%), bob has 49 events with 2 DELETEs. -/
def demoLogsMix : List Event :=
  List.replicate 2 (mkPlainEvent "alice" "DELETE") ++
  List.replicate 49 (mkPlainEvent "alice" "UPDATE") ++
  List.replicate 2 (mkPlainEvent "bob" "DELETE") ++
  List.replicate 47 (mkPlainEvent "bob" "UPDATE")

theorem demoMix_alice_length : (userEvents demoLogsMix "alice").length = 51 := by
  decide

theorem demoMix_alice_deletes :
    countType (userEvents demoLogsMix "alice") "DELETE" = 2 := by
  decide

theorem demoMix_alice_pct :
    typePercentage (userEvents demoLogsMix "alice") "DELETE" = 200 / 51 := by
  simp only [typePercentage]
  rw [demoMix_alice_length, demoMix_alice_deletes]
  norm_num

/-- Witness for C3: alice (51 events, 2 DELETEs, 3.9%) is flagged; bob
(49 events, 2 DELETEs) is not. -/
theorem unusual_event_types_characterization_witness :
    (∃ r ∈ detectUnusualEventTypes demoLogsMix, r.user_id = "alice") ∧
    ¬ (∃ r ∈ detectUnusualEventTypes demoLogsMix, r.user_id = "bob") := by
  constructor
  · exact ((unusual_event_types_characterization demoLogsMix).1 "alice").mpr
      ⟨by rw [demoMix_alice_pct]; norm_num, by rw [demoMix_alice_length]; norm_num⟩
  · intro h
    have hc := ((unusual_event_types_characterization demoLogsMix).1 "bob").mp h
    have hlenb : (userEvents demoLogsMix "bob").length = 49 := by decide
    rw [hlenb] at hc
    exact absurd hc.2 (by omega)

/-- C10: for every flagged user, the reported `delete_count`, reconstructed by
truncating `(delete_percentage / 100) * total_events`, equals the user's actual
number of DELETE events: the percentage round-trip loses nothing under exact
arithmetic. -/
theorem delete_count_round_trip (logs : List Event) :
    ∀ r ∈ detectUnusualEventTypes logs,
      r.delete_count = (countType (userEvents logs r.user_id) "DELETE" : Int) := by
  intro r hr
  obtain ⟨_, hsome⟩ := mem_detectUnusualEventTypes.mp hr
  obtain ⟨_, _, hcnt, _, _, h50⟩ := unusualRecord_eq_some hsome
  rw [hcnt]
  have hlen0 : (userEvents logs r.user_id).length ≠ 0 := by omega
  have hQ : ((userEvents logs r.user_id).length : ℚ) ≠ 0 := Nat.cast_ne_zero.mpr hlen0
  rw [typePercentage, if_neg hlen0]
  have hval : (countType (userEvents logs r.user_id) "DELETE" : ℚ) /
        ((userEvents logs r.user_id).length : ℚ) * 100 / 100 *
        ((userEvents logs r.user_id).length : ℚ) =
      (countType (userEvents logs r.user_id) "DELETE" : ℚ) := by
    field_simp
    ring
  rw [hval, pyInt, if_pos (by positivity)]
  exact Int.floor_natCast _

/-- The record the detector reports for alice on the mix demo. -/
def demoMixRecord : UnusualRecord :=
  { user_id := "alice", tenant_id := 1, delete_percentage := 200 / 51,
    delete_count := 2, total_events := 51 }

/-- Witness for C10 at the mix demo: alice's reported delete count equals her
actual DELETE count. -/
theorem delete_count_round_trip_witness :
    demoMixRecord.delete_count =
      (countType (userEvents demoLogsMix demoMixRecord.user_id) "DELETE" : Int) := by
  have hcond : 2 < typePercentage (userEvents demoLogsMix "alice") "DELETE" ∧
      50 < (userEvents demoLogsMix "alice").length :=
    ⟨by rw [demoMix_alice_pct]; norm_num, by rw [demoMix_alice_length]; norm_num⟩
  have hdel : pyInt (typePercentage (userEvents demoLogsMix "alice") "DELETE" / 100 *
      ((userEvents demoLogsMix "alice").length : ℚ)) = 2 := by
    rw [demoMix_alice_pct, demoMix_alice_length]
    have hval : (200 / 51 : ℚ) / 100 * ((51 : ℕ) : ℚ) = 2 := by norm_num
    rw [hval, pyInt, if_pos (by norm_num)]
    have h2 : ((2 : ℚ)) = ((2 : ℤ) : ℚ) := by norm_num
    rw [h2, Int.floor_intCast]
  have hsome : unusualRecord demoLogsMix "alice" = some demoMixRecord := by
    rw [unusualRecord_eq_of_cond hcond, hdel, demoMix_alice_pct, demoMix_alice_length]
    have hten : tenantOf (userEvents demoLogsMix "alice") = 1 := by decide
    rw [hten]
    rfl
  have hmem : demoMixRecord ∈ detectUnusualEventTypes demoLogsMix :=
    mem_detectUnusualEventTypes.mpr ⟨by decide, hsome⟩
  exact delete_count_round_trip demoLogsMix demoMixRecord hmem

/-! ## Detector 3: off-hours activity (`detect_off_hours_activity`) -/

/-- Hour of day of a timestamp (`timestamp.dt.hour`). -/
def hourOf (ts : Nat) : Nat := ts / 3600 % 24

/-- The configured off-hours test: hour in `[23, 0, 1, 2, 3, 4, 5]`. -/
def isOffHour (e : Event) : Bool :=
  hourOf e.timestamp == 23 || hourOf e.timestamp == 0 || hourOf e.timestamp == 1 ||
  hourOf e.timestamp == 2 || hourOf e.timestamp == 3 || hourOf e.timestamp == 4 ||
  hourOf e.timestamp == 5

/-- A flagged off-hours user (the per-user dict of `detect_off_hours_activity`). -/
structure OffHoursRecord where
  user_id : String
  tenant_id : Nat
  total_events : Nat
  off_hours_count : Nat
  off_hours_percentage : ℚ
  off_hours_events : List Event
deriving DecidableEq, Repr

/-- The record for one user, if any: flag users with more than 5 off-hours
events (`if off_hours_count > 5`). -/
def offHoursRecord (logs : List Event) (u : String) : Option OffHoursRecord :=
  let evs := userEvents logs u
  let offEvs := evs.filter isOffHour
  if 5 < offEvs.length then
    some { user_id := u, tenant_id := tenantOf evs, total_events := evs.length,
           off_hours_count := offEvs.length,
           off_hours_percentage :=
             if evs.length = 0 then 0
             else (offEvs.length : ℚ) / (evs.length : ℚ) * 100,
           off_hours_events := offEvs }
  else none

/-- Descending order on off-hours percentage
(`sorted(..., key=..., reverse=True)`). -/
def offPctGE : OffHoursRecord → OffHoursRecord → Prop :=
  fun a b => b.off_hours_percentage ≤ a.off_hours_percentage

instance : DecidableRel offPctGE := fun a b =>
  inferInstanceAs (Decidable (b.off_hours_percentage ≤ a.off_hours_percentage))

instance : IsTotal OffHoursRecord offPctGE :=
  ⟨fun a b => le_total b.off_hours_percentage a.off_hours_percentage⟩

instance : IsTrans OffHoursRecord offPctGE :=
  ⟨fun _ _ _ hab hbc => le_trans hbc hab⟩

/-- `detect_off_hours_activity()`: flagged users sorted descending by off-hours
percentage. -/
def detectOffHoursActivity (logs : List Event) : List OffHoursRecord :=
  List.insertionSort offPctGE ((uniqueUsers logs).filterMap (offHoursRecord logs))

theorem offHoursRecord_eq_some {logs : List Event} {u : String} {r : OffHoursRecord}
    (h : offHoursRecord logs u = some r) :
    r.user_id = u ∧
    r.total_events = (userEvents logs u).length ∧
    r.off_hours_count = ((userEvents logs u).filter isOffHour).length ∧
    r.off_hours_percentage =
      (if (userEvents logs u).length = 0 then 0
       else (((userEvents logs u).filter isOffHour).length : ℚ) /
         ((userEvents logs u).length : ℚ) * 100) ∧
    5 < ((userEvents logs u).filter isOffHour).length := by
  simp only [offHoursRecord] at h
  split at h
  · rename_i hcond
    injection h with h
    subst h
    exact ⟨rfl, rfl, rfl, rfl, hcond⟩
  · exact absurd h (by simp)

theorem offHoursRecord_eq_of_cond {logs : List Event} {u : String}
    (hcond : 5 < ((userEvents logs u).filter isOffHour).length) :
    offHoursRecord logs u =
      some { user_id := u, tenant_id := tenantOf (userEvents logs u),
             total_events := (userEvents logs u).length,
             off_hours_count := ((userEvents logs u).filter isOffHour).length,
             off_hours_percentage :=
               if (userEvents logs u).length = 0 then 0
               else ((((userEvents logs u).filter isOffHour).length : ℚ)) /
                 (((userEvents logs u).length : ℚ)) * 100,
             off_hours_events := (userEvents logs u).filter isOffHour } := by
  simp only [offHoursRecord]
  rw [if_pos hcond]

theorem mem_detectOffHoursActivity {logs : List Event} {r : OffHoursRecord} :
    r ∈ detectOffHoursActivity logs ↔
      r.user_id ∈ uniqueUsers logs ∧ offHoursRecord logs r.user_id = some r := by
  unfold detectOffHoursActivity
  rw [List.mem_insertionSort, List.mem_filterMap]
  constructor
  · rintro ⟨u, hu, hr⟩
    have huid : r.user_id = u := (offHoursRecord_eq_some hr).1
    rw [huid]
    exact ⟨hu, hr⟩
  · rintro ⟨hu, hr⟩
    exact ⟨r.user_id, hu, hr⟩

/-- C4: with off-hours defined as hour in 23..5, `detect_off_hours_activity`
flags a user iff their off-hours event count strictly exceeds 5, records that
count and its percentage of the user's total events, and sorts flagged users
descending by off-hours percentage. -/
theorem off_hours_characterization (logs : List Event) :
    (∀ u : String,
       (∃ r ∈ detectOffHoursActivity logs, r.user_id = u) ↔
         5 < ((userEvents logs u).filter isOffHour).length)
    ∧ (∀ r ∈ detectOffHoursActivity logs,
        r.off_hours_count = ((userEvents logs r.user_id).filter isOffHour).length ∧
        r.total_events = (userEvents logs r.user_id).length ∧
        r.off_hours_percentage =
          (((userEvents logs r.user_id).filter isOffHour).length : ℚ) /
            ((userEvents logs r.user_id).length : ℚ) * 100)
    ∧ (detectOffHoursActivity logs).Pairwise offPctGE := by
  refine ⟨?_, ?_, ?_⟩
  · intro u
    constructor
    · rintro ⟨r, hr, rfl⟩
      exact (offHoursRecord_eq_some (mem_detectOffHoursActivity.mp hr).2).2.2.2.2
    · intro hcond
      have hne : userEvents logs u ≠ [] := by
        intro h0
        rw [h0] at hcond
        exact absurd hcond (by simp)
      obtain ⟨e, he⟩ := List.exists_mem_of_ne_nil _ hne
      have hu : u ∈ uniqueUsers logs :=
        mem_uniqueUsers_iff.mpr ⟨e, (mem_userEvents.mp he).1, (mem_userEvents.mp he).2⟩
      have hr := offHoursRecord_eq_of_cond hcond
      exact ⟨{ user_id := u, tenant_id := tenantOf (userEvents logs u),
               total_events := (userEvents logs u).length,
               off_hours_count := ((userEvents logs u).filter isOffHour).length,
               off_hours_percentage :=
                 if (userEvents logs u).length = 0 then 0
                 else ((((userEvents logs u).filter isOffHour).length : ℚ)) /
                   (((userEvents logs u).length : ℚ)) * 100,
               off_hours_events := (userEvents logs u).filter isOffHour },
             mem_detectOffHoursActivity.mpr ⟨hu, hr⟩, rfl⟩
  · intro r hr
    obtain ⟨_, hsome⟩ := mem_detectOffHoursActivity.mp hr
    obtain ⟨_, htot, hcnt, hpct, hcond⟩ := offHoursRecord_eq_some hsome
    have hle := List.length_filter_le isOffHour (userEvents logs r.user_id)
    have hne : ¬ ((userEvents logs r.user_id).length = 0) := by omega
    rw [if_neg hne] at hpct
    exact ⟨hcnt, htot, hpct⟩
  · exact List.sorted_insertionSort offPctGE _

/-- An event at hour 2 of the night, used for the off-hours boundary demo. -/
def mkNightEvent (u : String) : Event :=
  { timestamp := 7200, tenant_id := 1, user_id := u, event_type := "UPDATE",
    resource_id := "RES_1", status := "SUCCESS", ip_address := "10.0.0.1" }

/-- Boundary demo for the off-hours floor: carol has 6 events at hour 2,
dave has 5. -/
def demoLogsNight : List Event :=
  List.replicate 6 (mkNightEvent "carol") ++ List.replicate 5 (mkNightEvent "dave")

/-- Witness for C4: carol (6 off-hours events) is flagged; dave (5) is not. -/
theorem off_hours_characterization_witness :
    (∃ r ∈ detectOffHoursActivity demoLogsNight, r.user_id = "carol") ∧
    ¬ (∃ r ∈ detectOffHoursActivity demoLogsNight, r.user_id = "dave") := by
  constructor
  · exact ((off_hours_characterization demoLogsNight).1 "carol").mpr (by decide)
  · intro h
    have hc := ((off_hours_characterization demoLogsNight).1 "dave").mp h
    revert hc
    decide

/-! ## Detector 4: suspicious IP access (`detect_suspicious_ip_access`) -/

/-- Number of a user's events from one IP (`value_counts()` entry). -/
def ipCount (l : List Event) (ip : String) : Nat :=
  (l.filter (fun e => e.ip_address == ip)).length

/-- Distinct IPs of a sub-log, in order of first occurrence. -/
def distinctIPs (l : List Event) : List String :=
  uniqueStr (l.map (·.ip_address))

/-- Percentage of a user's events coming from an IP used `cnt` times
(`(count / total_events) * 100`). -/
def ipShare (l : List Event) (cnt : Nat) : ℚ :=
  (cnt : ℚ) / (l.length : ℚ) * 100

/-- Descending order on the count component of an IP-frequency pair, modelling
the iteration order of `value_counts()`. -/
def cntGE : (String × Nat) → (String × Nat) → Prop := fun a b => b.2 ≤ a.2

instance : DecidableRel cntGE := fun a b => inferInstanceAs (Decidable (b.2 ≤ a.2))

instance : IsTotal (String × Nat) cntGE := ⟨fun a b => Nat.le_total b.2 a.2⟩

instance : IsTrans (String × Nat) cntGE := ⟨fun _ _ _ hab hbc => Nat.le_trans hbc hab⟩

/-- Per-user IP frequency table in descending-count order (`value_counts()`). -/
def ipCountsSorted (l : List Event) : List (String × Nat) :=
  List.insertionSort cntGE ((distinctIPs l).map (fun ip => (ip, ipCount l ip)))

/-- The user's primary IPs: share strictly above 10%
(`if percentage > 10: primary_ips.append(ip)`). -/
def primaryIPs (l : List Event) : List String :=
  ((ipCountsSorted l).filter (fun p => decide (10 < ipShare l p.2))).map (·.1)

/-- The user's occasional-but-repeated IPs: at most a 10% share but at least 3
occurrences (`elif count >= 3: suspicious_ips.append((ip, count))`). -/
def occasionalIPs (l : List Event) : List (String × Nat) :=
  (ipCountsSorted l).filter
    (fun p => !(decide (10 < ipShare l p.2)) && decide (3 ≤ p.2))

/-- A flagged suspicious-IP user (the `anomaly` dict of
`detect_suspicious_ip_access`). -/
structure IPRecord where
  user_id : String
  tenant_id : Nat
  unique_ips : Nat
  primary_ips : List String
  suspicious_ips : List (String × Nat)
  total_events : Nat
deriving DecidableEq, Repr

/-- The record for one user, if any: flag users with more than 5 unique IPs or
more than 2 occasional IPs; the record lists only the top 5 occasional IPs
(`profile['suspicious_ips'][:5]`). -/
def suspiciousIPRecord (logs : List Event) (u : String) : Option IPRecord :=
  let evs := userEvents logs u
  if 5 < (distinctIPs evs).length ∨ 2 < (occasionalIPs evs).length then
    some { user_id := u, tenant_id := tenantOf evs,
           unique_ips := (distinctIPs evs).length,
           primary_ips := primaryIPs evs,
           suspicious_ips := (occasionalIPs evs).take 5,
           total_events := evs.length }
  else none

/-- Descending order on unique-IP count (`sort(key=..., reverse=True)`). -/
def uniqGE : IPRecord → IPRecord → Prop := fun a b => b.unique_ips ≤ a.unique_ips

instance : DecidableRel uniqGE := fun a b =>
  inferInstanceAs (Decidable (b.unique_ips ≤ a.unique_ips))

instance : IsTotal IPRecord uniqGE := ⟨fun a b => Nat.le_total b.unique_ips a.unique_ips⟩

instance : IsTrans IPRecord uniqGE := ⟨fun _ _ _ hab hbc => Nat.le_trans hbc hab⟩

/-- `detect_suspicious_ip_access()`: flagged users sorted descending by
unique-IP count. -/
def detectSuspiciousIPAccess (logs : List Event) : List IPRecord :=
  List.insertionSort uniqGE ((uniqueUsers logs).filterMap (suspiciousIPRecord logs))

theorem mem_ipCountsSorted {l : List Event} {ip : String} {c : Nat} :
    (ip, c) ∈ ipCountsSorted l ↔ ip ∈ distinctIPs l ∧ c = ipCount l ip := by
  unfold ipCountsSorted
  rw [List.mem_insertionSort, List.mem_map]
  constructor
  · rintro ⟨x, hx, hpair⟩
    injection hpair with h1 h2
    subst h1
    subst h2
    exact ⟨hx, rfl⟩
  · rintro ⟨hip, rfl⟩
    exact ⟨ip, hip, rfl⟩

theorem suspiciousIPRecord_eq_some {logs : List Event} {u : String} {r : IPRecord}
    (h : suspiciousIPRecord logs u = some r) :
    r.user_id = u ∧
    r.unique_ips = (distinctIPs (userEvents logs u)).length ∧
    r.primary_ips = primaryIPs (userEvents logs u) ∧
    r.suspicious_ips = (occasionalIPs (userEvents logs u)).take 5 ∧
    r.total_events = (userEvents logs u).length ∧
    (5 < (distinctIPs (userEvents logs u)).length ∨
     2 < (occasionalIPs (userEvents logs u)).length) := by
  simp only [suspiciousIPRecord] at h
  split at h
  · rename_i hcond
    injection h with h
    subst h
    exact ⟨rfl, rfl, rfl, rfl, rfl, hcond⟩
  · exact absurd h (by simp)

theorem suspiciousIPRecord_eq_of_cond {logs : List Event} {u : String}
    (hcond : 5 < (distinctIPs (userEvents logs u)).length ∨
      2 < (occasionalIPs (userEvents logs u)).length) :
    suspiciousIPRecord logs u =
      some { user_id := u, tenant_id := tenantOf (userEvents logs u),
             unique_ips := (distinctIPs (userEvents logs u)).length,
             primary_ips := primaryIPs (userEvents logs u),
             suspicious_ips := (occasionalIPs (userEvents logs u)).take 5,
             total_events := (userEvents logs u).length } := by
  simp only [suspiciousIPRecord]
  rw [if_pos hcond]

theorem mem_detectSuspiciousIPAccess {logs : List Event} {r : IPRecord} :
    r ∈ detectSuspiciousIPAccess logs ↔
      r.user_id ∈ uniqueUsers logs ∧ suspiciousIPRecord logs r.user_id = some r := by
  unfold detectSuspiciousIPAccess
  rw [List.mem_insertionSort, List.mem_filterMap]
  constructor
  · rintro ⟨u, hu, hr⟩
    have huid : r.user_id = u := (suspiciousIPRecord_eq_some hr).1
    rw [huid]
    exact ⟨hu, hr⟩
  · rintro ⟨hu, hr⟩
    exact ⟨r.user_id, hu, hr⟩

theorem userEvents_ne_nil_of_mem_distinctIPs {logs : List Event} {u ip : String}
    (h : ip ∈ distinctIPs (userEvents logs u)) : userEvents logs u ≠ [] := by
  intro h0
  rw [h0] at h
  exact absurd h (by simp [distinctIPs, uniqueStr, dedupFirstAux])

/-- C5: `detect_suspicious_ip_access` classifies a user's IPs as primary
(strictly more than a 10% share) or occasional-but-repeated (at least 3
occurrences, at most a 10% share), flags a user iff their unique-IP count
strictly exceeds 5 or their occasional-IP count strictly exceeds 2, sorts
flagged users descending by unique-IP count, and the top-5 cap applies only to
the listed occasional IPs in the record, never to the flag condition. -/
theorem suspicious_ip_characterization (logs : List Event) :
    (∀ u : String,
       (∃ r ∈ detectSuspiciousIPAccess logs, r.user_id = u) ↔
         (5 < (distinctIPs (userEvents logs u)).length ∨
          2 < (occasionalIPs (userEvents logs u)).length))
    ∧ (∀ r ∈ detectSuspiciousIPAccess logs,
        r.unique_ips = (distinctIPs (userEvents logs r.user_id)).length ∧
        r.suspicious_ips = (occasionalIPs (userEvents logs r.user_id)).take 5 ∧
        (∀ ip : String, ip ∈ r.primary_ips ↔
           ip ∈ distinctIPs (userEvents logs r.user_id) ∧
           10 < ipShare (userEvents logs r.user_id)
             (ipCount (userEvents logs r.user_id) ip)) ∧
        (∀ ip : String, ∀ c : Nat,
           (ip, c) ∈ occasionalIPs (userEvents logs r.user_id) ↔
             ip ∈ distinctIPs (userEvents logs r.user_id) ∧
             c = ipCount (userEvents logs r.user_id) ip ∧
             ipShare (userEvents logs r.user_id) c ≤ 10 ∧ 3 ≤ c))
    ∧ (detectSuspiciousIPAccess logs).Pairwise uniqGE := by
  refine ⟨?_, ?_, ?_⟩
  · intro u
    constructor
    · rintro ⟨r, hr, rfl⟩
      exact (suspiciousIPRecord_eq_some (mem_detectSuspiciousIPAccess.mp hr).2).2.2.2.2.2
    · intro hcond
      have hip : ∃ ip, ip ∈ distinctIPs (userEvents logs u) := by
        rcases hcond with h5 | h2
        · exact List.exists_mem_of_ne_nil (distinctIPs (userEvents logs u))
            (List.ne_nil_of_length_pos (by omega))
        · rcases List.exists_mem_of_ne_nil (occasionalIPs (userEvents logs u))
            (List.ne_nil_of_length_pos (by omega)) with ⟨p, hp⟩
          have hps := List.mem_filter.mp hp
          rcases p with ⟨ip, c⟩
          exact ⟨ip, (mem_ipCountsSorted.mp hps.1).1⟩
      obtain ⟨ip, hipmem⟩ := hip
      have hne : userEvents logs u ≠ [] := userEvents_ne_nil_of_mem_distinctIPs hipmem
      obtain ⟨e, he⟩ := List.exists_mem_of_ne_nil _ hne
      have hu : u ∈ uniqueUsers logs :=
        mem_uniqueUsers_iff.mpr ⟨e, (mem_userEvents.mp he).1, (mem_userEvents.mp he).2⟩
      have hr := suspiciousIPRecord_eq_of_cond hcond
      exact ⟨{ user_id := u, tenant_id := tenantOf (userEvents logs u),
               unique_ips := (distinctIPs (userEvents logs u)).length,
               primary_ips := primaryIPs (userEvents logs u),
               suspicious_ips := (occasionalIPs (userEvents logs u)).take 5,
               total_events := (userEvents logs u).length },
             mem_detectSuspiciousIPAccess.mpr ⟨hu, hr⟩, rfl⟩
  · intro r hr
    obtain ⟨_, hsome⟩ := mem_detectSuspiciousIPAccess.mp hr
    obtain ⟨_, huniq, hprim, hsusp, _, _⟩ := suspiciousIPRecord_eq_some hsome
    refine ⟨huniq, hsusp, ?_, ?_⟩
    · intro ip
      rw [hprim]
      unfold primaryIPs
      rw [List.mem_map]
      constructor
      · rintro ⟨p, hp, rfl⟩
        have hpf := List.mem_filter.mp hp
        rcases p with ⟨ip, c⟩
        obtain ⟨hipd, hc⟩ := mem_ipCountsSorted.mp hpf.1
        have hshare := of_decide_eq_true hpf.2
        exact ⟨hipd, hc ▸ hshare⟩
      · rintro ⟨hipd, hshare⟩
        refine ⟨(ip, ipCount (userEvents logs r.user_id) ip), List.mem_filter.mpr
          ⟨mem_ipCountsSorted.mpr ⟨hipd, rfl⟩, decide_eq_true hshare⟩, rfl⟩
    · intro ip c
      rw [occasionalIPs, List.mem_filter]
      constructor
      · rintro ⟨hp, hb⟩
        obtain ⟨hipd, hc⟩ := mem_ipCountsSorted.mp hp
        rw [Bool.and_eq_true, Bool.not_eq_true', decide_eq_false_iff_not,
          decide_eq_true_eq] at hb
        exact ⟨hipd, hc, le_of_not_lt hb.1, hb.2⟩
      · rintro ⟨hipd, hc, hle, h3⟩
        refine ⟨mem_ipCountsSorted.mpr ⟨hipd, hc⟩, ?_⟩
        rw [Bool.and_eq_true, Bool.not_eq_true', decide_eq_false_iff_not,
          decide_eq_true_eq]
        exact ⟨not_lt_of_le hle, h3⟩
  · exact List.sorted_insertionSort uniqGE _

/-- An event from a chosen IP, used for the suspicious-IP demo. -/
def mkIPEvent (u ip : String) : Event :=
  { timestamp := 36000, tenant_id := 1, user_id := u, event_type := "LOGIN",
    resource_id := "RES_1", status := "SUCCESS", ip_address := ip }

/-- Demo for the unique-IP flag: erin uses 6 distinct IPs. -/
def demoLogsIP : List Event :=
  (List.range 6).map (fun k => mkIPEvent "erin" ("10.0.0." ++ toString k))

/-- Witness for C5: erin (6 unique IPs) is flagged through the unique-IP
disjunct. -/
theorem suspicious_ip_characterization_witness :
    ∃ r ∈ detectSuspiciousIPAccess demoLogsIP, r.user_id = "erin" :=
  ((suspicious_ip_characterization demoLogsIP).1 "erin").mpr (Or.inl (by decide))

/-! ## Aggregate risk scoring (`generate_summary_report`) -/

/-- The LOW/MEDIUM/HIGH mapping of `generate_summary_report`
(`if total > 50: HIGH elif total > 20: MEDIUM else: LOW`). -/
def riskLevel (total : Nat) : String :=
  if 50 < total then "HIGH" else if 20 < total then "MEDIUM" else "LOW"

/-- The summary statistics computed and printed by `generate_summary_report`:
the four detector result counts (defaults `threshold=10`, `window=60`), their
plain sum, the mapped risk level, and the anomaly rate printed as a percentage
of all events. -/
structure SummaryReport where
  failed_login_count : Nat
  unusual_event_count : Nat
  suspicious_ip_count : Nat
  off_hours_count : Nat
  total_anomalies : Nat
  risk_level : String
  anomaly_rate_percent : ℚ
deriving DecidableEq, Repr

/-- `generate_summary_report()` run on a log. -/
def generateSummaryReport (logs : List Event) : SummaryReport :=
  let a := detectFailedLoginBursts logs 10 60
  let b := detectUnusualEventTypes logs
  let c := detectSuspiciousIPAccess logs
  let d := detectOffHoursActivity logs
  let total := a.length + b.length + c.length + d.length
  { failed_login_count := a.length,
    unusual_event_count := b.length,
    suspicious_ip_count := c.length,
    off_hours_count := d.length,
    total_anomalies := total,
    risk_level := riskLevel total,
    anomaly_rate_percent := (total : ℚ) / (logs.length : ℚ) * 100 }

theorem riskLevel_spec (n : Nat) :
    (riskLevel n = "HIGH" ↔ 50 < n) ∧
    (riskLevel n = "MEDIUM" ↔ (20 < n ∧ n ≤ 50)) ∧
    (riskLevel n = "LOW" ↔ n ≤ 20) := by
  unfold riskLevel
  by_cases h50 : 50 < n
  · rw [if_pos h50]
    refine ⟨⟨fun _ => h50, fun _ => rfl⟩, ?_, ?_⟩
    · constructor
      · intro h
        exact absurd h (by decide)
      · intro h
        omega
    · constructor
      · intro h
        exact absurd h (by decide)
      · intro h
        omega
  · rw [if_neg h50]
    by_cases h20 : 20 < n
    · rw [if_pos h20]
      refine ⟨?_, ⟨fun _ => ⟨h20, by omega⟩, fun _ => rfl⟩, ?_⟩
      · constructor
        · intro h
          exact absurd h (by decide)
        · intro h
          exact absurd h h50
      · constructor
        · intro h
          exact absurd h (by decide)
        · intro h
          omega
    · rw [if_neg h20]
      refine ⟨?_, ?_, ⟨fun _ => by omega, fun _ => rfl⟩⟩
      · constructor
        · intro h
          exact absurd h (by decide)
        · intro h
          exact absurd h h50
      · constructor
        · intro h
          exact absurd h (by decide)
        · intro h
          exact absurd h.1 h20

/-- C6: `generate_summary_report` computes `total_anomalies` as the plain sum
of the four detectors' result counts (no deduplication), maps it to HIGH iff
it strictly exceeds 50, MEDIUM iff it lies in (20, 50], LOW otherwise, and
reports the anomaly rate as the total divided by the event count (printed as a
percentage); in particular a total of 21 yields MEDIUM and 51 yields HIGH. -/
theorem summary_report_characterization (logs : List Event) :
    (generateSummaryReport logs).total_anomalies =
        (detectFailedLoginBursts logs 10 60).length +
        (detectUnusualEventTypes logs).length +
        (detectSuspiciousIPAccess logs).length +
        (detectOffHoursActivity logs).length
    ∧ ((generateSummaryReport logs).risk_level = "HIGH" ↔
        50 < (generateSummaryReport logs).total_anomalies)
    ∧ ((generateSummaryReport logs).risk_level = "MEDIUM" ↔
        (20 < (generateSummaryReport logs).total_anomalies ∧
         (generateSummaryReport logs).total_anomalies ≤ 50))
    ∧ ((generateSummaryReport logs).risk_level = "LOW" ↔
        (generateSummaryReport logs).total_anomalies ≤ 20)
    ∧ (generateSummaryReport logs).anomaly_rate_percent =
        ((generateSummaryReport logs).total_anomalies : ℚ) / (logs.length : ℚ) * 100
    ∧ riskLevel 21 = "MEDIUM" ∧ riskLevel 51 = "HIGH" := by
  have hr : (generateSummaryReport logs).risk_level =
      riskLevel ((generateSummaryReport logs).total_anomalies) := rfl
  obtain ⟨h1, h2, h3⟩ := riskLevel_spec ((generateSummaryReport logs).total_anomalies)
  rw [hr]
  exact ⟨rfl, h1, h2, h3, rfl, by decide, by decide⟩

/-! ## Generator event constructors and the dataset invariant

Each injected or baseline event of `generate_synthetic_logs.py` /
`generate_separate_tenant_datasets.py` is modelled as a pure constructor whose
arguments are the random draws the code makes: a `Fin` argument stands for a
bounded `random.randint` / `random.choice` index, a `Bool` for a probability
roll, and free `String`/`Nat` arguments for draws (user, timestamp, IP) that
the dataset invariant does not constrain. -/

/-- Event-type distribution keys of tenant 1 (Food Company). -/
def tenant1Types : List String :=
  ["LOGIN", "ORDER", "PAYMENT", "UPDATE", "COMPLAINT"]

/-- Event-type distribution keys of tenant 2 (IT Solutions Company). -/
def tenant2Types : List String :=
  ["LOGIN", "UPLOAD", "DOWNLOAD", "UPDATE", "ADMIN_ACTION"]

/-- The configured tenant ids. -/
def configuredTenants : List Nat := [1, 2]

/-- A tenant's configured event vocabulary. -/
def tenantVocab (t : Nat) : List String :=
  if t = 1 then tenant1Types else if t = 2 then tenant2Types else []

/-- Resource identifier `RES_<n>` (`f"RES_{n}"`). -/
def mkResourceId (n : Nat) : String := "RES_" ++ toString n

/-- Tenant id of a generated user profile: profiles are only created for the
two configured tenants. -/
def tenantIdOf (t : Fin 2) : Nat := t.val + 1

/-- The dataset invariant of the spec: resource id of the form `RES_<n>` with
`n` in `[1, 1000]`, configured tenant, event type in that tenant's
vocabulary. -/
def eventInvariant (e : Event) : Prop :=
  (∃ n, 1 ≤ n ∧ n ≤ 1000 ∧ e.resource_id = mkResourceId n) ∧
  e.tenant_id ∈ configuredTenants ∧
  e.event_type ∈ tenantVocab e.tenant_id

/-- A baseline event of `_generate_normal_events`: event type drawn from the
tenant's distribution keys, resource suffix from `randint(1, 1000)`, SUCCESS
with probability 0.9, IP from the user's typical pool. -/
def normalEvent (t : Fin 2) (u : String) (ts : Nat)
    (etIdx : Fin (tenantVocab (tenantIdOf t)).length) (res : Fin 1000)
    (success : Bool) (ip : String) : Event :=
  { timestamp := ts, tenant_id := tenantIdOf t, user_id := u,
    event_type := (tenantVocab (tenantIdOf t)).get etIdx,
    resource_id := mkResourceId (res.val + 1),
    status := if success then "SUCCESS" else "FAILURE",
    ip_address := ip }

/-- A failed-login burst event of `_inject_failed_login_bursts`: LOGIN,
FAILURE, resource suffix from `randint(1, 1000)`. -/
def burstEvent (t : Fin 2) (u : String) (ts : Nat) (res : Fin 1000)
    (ip : String) : Event :=
  { timestamp := ts, tenant_id := tenantIdOf t, user_id := u,
    event_type := "LOGIN", resource_id := mkResourceId (res.val + 1),
    status := "FAILURE", ip_address := ip }

/-- An unauthorized admin action injected for non-admin users of the IT tenant
(id 2): event type fixed to ADMIN_ACTION, status SUCCESS. -/
def adminActionEvent (u : String) (ts : Nat) (res : Fin 1000)
    (ip : String) : Event :=
  { timestamp := ts, tenant_id := 2, user_id := u, event_type := "ADMIN_ACTION",
    resource_id := mkResourceId (res.val + 1), status := "SUCCESS",
    ip_address := ip }

/-- An excessive complaint injected for users of the Food tenant (id 1):
event type fixed to COMPLAINT, status SUCCESS. -/
def complaintEvent (u : String) (ts : Nat) (res : Fin 1000)
    (ip : String) : Event :=
  { timestamp := ts, tenant_id := 1, user_id := u, event_type := "COMPLAINT",
    resource_id := mkResourceId (res.val + 1), status := "SUCCESS",
    ip_address := ip }

/-- Event-type choices of `_inject_off_hours_activity` per tenant. -/
def offHoursChoices (t : Nat) : List String :=
  if t = 1 then ["ORDER", "PAYMENT", "UPDATE"]
  else ["UPLOAD", "DOWNLOAD", "UPDATE", "ADMIN_ACTION"]

/-- An off-hours event of `_inject_off_hours_activity`: event type drawn from
the tenant-appropriate subset, status SUCCESS. -/
def offHoursEvent (t : Fin 2) (u : String) (ts : Nat)
    (etIdx : Fin (offHoursChoices (tenantIdOf t)).length) (res : Fin 1000)
    (ip : String) : Event :=
  { timestamp := ts, tenant_id := tenantIdOf t, user_id := u,
    event_type := (offHoursChoices (tenantIdOf t)).get etIdx,
    resource_id := mkResourceId (res.val + 1), status := "SUCCESS",
    ip_address := ip }

/-- A suspicious-IP event of `_inject_suspicious_ip_access` in
`generate_separate_tenant_datasets.py`: event type drawn from the tenant's own
vocabulary, FAILURE with probability 0.4, suspicious IP. -/
def sepSuspiciousIPEvent (t : Fin 2) (u : String) (ts : Nat)
    (etIdx : Fin (tenantVocab (tenantIdOf t)).length) (res : Fin 1000)
    (fail : Bool) (ip : String) : Event :=
  { timestamp := ts, tenant_id := tenantIdOf t, user_id := u,
    event_type := (tenantVocab (tenantIdOf t)).get etIdx,
    resource_id := mkResourceId (res.val + 1),
    status := if fail then "FAILURE" else "SUCCESS", ip_address := ip }

/-- Event-type choices hard-coded by `_inject_unusual_ip_access` in
`generate_synthetic_logs.py`. -/
def unusualIPChoices : List String := ["LOGIN", "CREATE", "UPDATE", "DOWNLOAD"]

/-- A suspicious-IP event of `_inject_unusual_ip_access` in
`generate_synthetic_logs.py`: event type from the hard-coded list above and
resource id `f"RES_{tenant_id}_{random.randint(1000, 9999)}"`. -/
def unusualIPEvent (t : Fin 2) (u : String) (ts : Nat)
    (etIdx : Fin unusualIPChoices.length) (resNum : Fin 9000) (fail : Bool)
    (ip : String) : Event :=
  { timestamp := ts, tenant_id := tenantIdOf t, user_id := u,
    event_type := unusualIPChoices.get etIdx,
    resource_id :=
      "RES_" ++ toString (tenantIdOf t) ++ "_" ++ toString (1000 + resNum.val),
    status := if fail then "FAILURE" else "SUCCESS", ip_address := ip }

theorem resourceId_ok (res : Fin 1000) :
    ∃ n, 1 ≤ n ∧ n ≤ 1000 ∧ mkResourceId (res.val + 1) = mkResourceId n :=
  ⟨res.val + 1, Nat.le_add_left 1 res.val, Nat.succ_le_of_lt res.isLt, rfl⟩

theorem tenantIdOf_mem (t : Fin 2) : tenantIdOf t ∈ configuredTenants := by
  fin_cases t <;> decide

/-- C7: every event constructor of the baseline generator and of the burst,
tenant-specific, off-hours and separate-dataset suspicious-IP injectors
satisfies the dataset invariant for every admissible random draw — but
`_inject_unusual_ip_access` of `generate_synthetic_logs.py` violates it: at an
admissible draw it emits event type CREATE, which is in no tenant's
vocabulary, and its resource id `RES_1_5000` is not of the form `RES_<n>`
with `n` in `[1, 1000]`. -/
theorem generator_invariant_status :
    (∀ (t : Fin 2) (u : String) (ts : Nat)
       (etIdx : Fin (tenantVocab (tenantIdOf t)).length) (res : Fin 1000)
       (success : Bool) (ip : String),
         eventInvariant (normalEvent t u ts etIdx res success ip))
    ∧ (∀ (t : Fin 2) (u : String) (ts : Nat) (res : Fin 1000) (ip : String),
         eventInvariant (burstEvent t u ts res ip))
    ∧ (∀ (u : String) (ts : Nat) (res : Fin 1000) (ip : String),
         eventInvariant (adminActionEvent u ts res ip))
    ∧ (∀ (u : String) (ts : Nat) (res : Fin 1000) (ip : String),
         eventInvariant (complaintEvent u ts res ip))
    ∧ (∀ (t : Fin 2) (u : String) (ts : Nat)
       (etIdx : Fin (offHoursChoices (tenantIdOf t)).length) (res : Fin 1000)
       (ip : String), eventInvariant (offHoursEvent t u ts etIdx res ip))
    ∧ (∀ (t : Fin 2) (u : String) (ts : Nat)
       (etIdx : Fin (tenantVocab (tenantIdOf t)).length) (res : Fin 1000)
       (fail : Bool) (ip : String),
         eventInvariant (sepSuspiciousIPEvent t u ts etIdx res fail ip))
    ∧ ¬ eventInvariant
        (unusualIPEvent 0 "T01U001" 0 ⟨1, by decide⟩ ⟨4000, by decide⟩ false
          "185.220.1.1") := by
  refine ⟨?_, ?_, ?_, ?_, ?_, ?_, ?_⟩
  · intro t u ts etIdx res success ip
    exact ⟨resourceId_ok res, tenantIdOf_mem t, List.get_mem _ _ _⟩
  · intro t u ts res ip
    refine ⟨resourceId_ok res, tenantIdOf_mem t, ?_⟩
    show "LOGIN" ∈ tenantVocab (tenantIdOf t)
    fin_cases t <;> decide
  · intro u ts res ip
    refine ⟨resourceId_ok res, ?_, ?_⟩
    · show (2 : Nat) ∈ configuredTenants
      decide
    · show "ADMIN_ACTION" ∈ tenantVocab 2
      decide
  · intro u ts res ip
    refine ⟨resourceId_ok res, ?_, ?_⟩
    · show (1 : Nat) ∈ configuredTenants
      decide
    · show "COMPLAINT" ∈ tenantVocab 1
      decide
  · intro t u ts etIdx res ip
    refine ⟨resourceId_ok res, tenantIdOf_mem t, ?_⟩
    have hsub : ∀ s ∈ offHoursChoices (tenantIdOf t), s ∈ tenantVocab (tenantIdOf t) := by
      fin_cases t <;> decide
    exact hsub _ (List.get_mem _ _ _)
  · intro t u ts etIdx res fail ip
    exact ⟨resourceId_ok res, tenantIdOf_mem t, List.get_mem _ _ _⟩
  · intro h
    exact absurd h.2.2 (by decide)

/-! ## Error-path control flow of the analysis entry points

Only the missing-input-file path is modelled: reading the CSV is represented
by an `Option (List Event)` argument (`none` when the file is absent), and a
run outcome records whether the script completed, printed a handled error
message, or let an exception propagate out of `main`. -/

/-- Outcome of running an analysis script. -/
inductive RunResult where
  | completed : RunResult
  | printedError (msg : String) : RunResult
  | uncaughtException (exc : String) : RunResult
deriving DecidableEq, Repr

/-- `main()` of `analyze_tenant_logs.py`: the whole analysis runs inside
`try: ... except FileNotFoundError: print(...)`, so a missing input file is
turned into a printed message. -/
def analyzeTenantLogsMain (input : Option (List Event)) : RunResult :=
  match input with
  | none => RunResult.printedError
      "Error: synthetic_vaultsphere_logs.csv not found! Please run generate_synthetic_logs.py first to create the dataset."
  | some _ => RunResult.completed

/-- `main()` of `analyze_anomalies.py`: `VaultSphereAnomalyDetector.__init__`
calls `pd.read_csv(csv_file)` with no surrounding `try`, and no caller catches
`FileNotFoundError`, so a missing input file makes the exception propagate. -/
def analyzeAnomaliesMain (input : Option (List Event)) : RunResult :=
  match input with
  | none => RunResult.uncaughtException "FileNotFoundError"
  | some _ => RunResult.completed

/-- A run handles the missing input file: it prints a message instead of
letting an exception escape. -/
def handlesMissingInput (run : Option (List Event) → RunResult) : Prop :=
  ∃ msg, run none = RunResult.printedError msg

/-- C8 counterexample: the `analyze_anomalies.py` detector does NOT catch the
missing-file condition — with no input file its run ends in an uncaught
`FileNotFoundError`, not a printed message. -/
theorem missing_input_counterexample :
    ¬ handlesMissingInput analyzeAnomaliesMain ∧
    analyzeAnomaliesMain none = RunResult.uncaughtException "FileNotFoundError" := by
  constructor
  · rintro ⟨msg, h⟩
    exact RunResult.noConfusion h
  · rfl

/-- C8 amended: `analyze_tenant_logs.py` catches the missing input file and
prints a clear user-facing message without a stack dump, but
`analyze_anomalies.py` does not — there the `FileNotFoundError` propagates as
an uncaught exception. -/
theorem missing_input_amended :
    handlesMissingInput analyzeTenantLogsMain ∧
    analyzeAnomaliesMain none = RunResult.uncaughtException "FileNotFoundError" :=
  ⟨⟨"Error: synthetic_vaultsphere_logs.csv not found! Please run generate_synthetic_logs.py first to create the dataset.",
    rfl⟩, rfl⟩
